import Mathlib

set_option maxRecDepth 4000

/-!
Shallow embedding of the result-type library (src/src/result.ts and
src/src/retries.ts).  JavaScript runtime values relevant to the library are
modelled by the inductive type `JSVal`: plain primitives, the two Result
object shapes, `TaggedError` instances (which are simultaneously `Error`
objects, tagged values and failure Results, with their `error` field equal
to the instance itself), generic tagged objects, and settled promises
(a pending handle carrying the outcome it will settle with).
-/

namespace Tryhard

inductive JSVal : Type where
  | vnum (n : Int)
  | vstr (s : String)
  | vundefined
  | okV (value : JSVal)
  | errV (err : JSVal)
  | taggedErr (tag : String) (msg : String) (cause : JSVal)
  | tagObj (tag : String) (id : Int)
  | fulfilled (v : JSVal)
  | rejected (r : JSVal)
deriving DecidableEq

/-- `value instanceof Promise`. -/
def isPromise : JSVal → Bool
  | .fulfilled _ => true
  | .rejected _ => true
  | _ => false

/-- JS promise assimilation: a non-promise becomes a fulfilled promise. -/
def toPromise (v : JSVal) : JSVal :=
  if isPromise v then v else .fulfilled v

/-- `p.then(f)` for a non-throwing callback. -/
def pthen (p : JSVal) (f : JSVal → JSVal) : JSVal :=
  match p with
  | .fulfilled v => toPromise (f v)
  | .rejected r => .rejected r
  | other => other

/-- `p.then(f)` for a callback that may throw: a throw rejects the result. -/
def pthenE (p : JSVal) (f : JSVal → Except JSVal JSVal) : JSVal :=
  match p with
  | .fulfilled v =>
      match f v with
      | Except.ok x => toPromise x
      | Except.error e => .rejected e
  | .rejected r => .rejected r
  | other => other

/-- The `type` discriminant property of a value, when present. -/
def typeField : JSVal → Option String
  | .okV _ => some ("ok")
  | .errV _ => some ("error")
  | .taggedErr _ _ _ => some ("error")
  | _ => none

/-- Whether the object carries a `value` payload property. -/
def hasValueField : JSVal → Bool
  | .okV _ => true
  | _ => false

/-- Whether the object carries an `error` payload property
(a `TaggedError` instance has `error = this`). -/
def hasErrorField : JSVal → Bool
  | .errV _ => true
  | .taggedErr _ _ _ => true
  | _ => false

/-- The `value` property (undefined when absent). -/
def valueField : JSVal → JSVal
  | .okV v => v
  | _ => .vundefined

/-- The `error` property (undefined when absent); on a `TaggedError`
instance it is the instance itself. -/
def errorField : JSVal → JSVal
  | .errV e => e
  | .taggedErr t m c => .taggedErr t m c
  | _ => .vundefined

/-- The string-valued `tag` property, when present. -/
def tagField : JSVal → Option String
  | .taggedErr t _ _ => some t
  | .tagObj t _ => some t
  | _ => none

/-- `isResult` from src/src/result.ts lines 216-222. -/
def isResult (value : JSVal) : Bool :=
  match typeField value with
  | some ("ok") => hasValueField value
  | some ("error") => hasErrorField value
  | _ => false

/-- `isOk` from src/src/result.ts lines 250-252. -/
def isOk (value : JSVal) : Bool :=
  isResult value && typeField value == some ("ok")

/-- `isError` from src/src/result.ts lines 278-280. -/
def isError (value : JSVal) : Bool :=
  isResult value && typeField value == some ("error")

/-- `isTagged(value)` from src/src/result.ts lines 313-326. -/
def isTagged (value : JSVal) : Bool :=
  (tagField value).isSome

/-- `isTagged(value, tag)` from src/src/result.ts lines 313-326. -/
def isTaggedWith (value : JSVal) (tag : String) : Bool :=
  tagField value == some tag

/-- `ok` constructor, src/src/result.ts lines 157-166:
`if (value instanceof Promise) return value.then(ok); return (ok-variant)`
with the `then` semantics unfolded on the two promise shapes. -/
def ok : JSVal → JSVal
  | .fulfilled v => toPromise (ok v)
  | .rejected r => .rejected r
  | v => .okV v

/-- `error` constructor, src/src/result.ts lines 189-198:
`if (err instanceof Promise) return err.then(error); return (error-variant)`
with the `then` semantics unfolded on the two promise shapes. -/
def error : JSVal → JSVal
  | .fulfilled v => toPromise (error v)
  | .rejected r => .rejected r
  | v => .errV v

/-- `new UnknownException(options)`: a `TaggedError("UnknownException")`
instance with message "Unknown exception" and the given cause
(src/src/result.ts lines 388-404). -/
def unknownException (cause : JSVal) : JSVal :=
  .taggedErr ("UnknownException") ("Unknown exception") cause

/-- A configured callback: it may throw (the `Except.error` side). -/
abbrev JSFun := JSVal → Except JSVal JSVal

/-- A configured predicate: truthiness of its JS result, and it may throw. -/
abbrev JSPred := JSVal → Except JSVal Bool

/-- `applyMaybeAsync` from src/src/result.ts lines 363-368:
`result instanceof Promise ? result.then(apply) : apply(result)`. -/
def applyMaybeAsync (result : JSVal) (apply : JSVal → Except JSVal JSVal) :
    Except JSVal JSVal :=
  if isPromise result then Except.ok (pthenE result apply) else apply result

/-- The `apply` closure of `flatMap`, src/src/result.ts lines 747-753:
`if (isError(result)) return result; return callback(result.value)`. -/
def flatMapApply (callback : JSFun) (result : JSVal) : Except JSVal JSVal :=
  if isError result then Except.ok result else callback (valueField result)

/-- The callback `map` feeds into `flatMap`, src/src/result.ts lines 783-786:
`(value) => ok(callback(value))`. -/
def mapCallback (callback : JSFun) : JSFun :=
  fun value => (callback value).map ok

/-- The callback `tap` feeds into `flatMap`, src/src/result.ts lines 840-847:
run the side effect, return `ok(value)` directly when the effect is not a
promise, otherwise `next.then(() => ok(value))`. -/
def tapCallback (callback : JSFun) : JSFun :=
  fun value =>
    match callback value with
    | Except.error e => Except.error e
    | Except.ok next =>
        if isPromise next then Except.ok (pthen next (fun _ => ok value))
        else Except.ok (ok value)

/-- The callback `filterOrElse` feeds into `flatMap`, src/src/result.ts
lines 955-963: `predicate(value) ? ok(value) : ok(orElse())` where
`orElseThunk` is the outcome of invoking the `orElse` thunk. -/
def filterOrElseCallback (predicate : JSPred) (orElseThunk : Except JSVal JSVal) :
    JSFun :=
  fun value =>
    match predicate value with
    | Except.error e => Except.error e
    | Except.ok b =>
        if b then Except.ok (ok value) else orElseThunk.map ok

/-- The callback `filterOrFail` feeds into `flatMap`, src/src/result.ts
lines 989-997: `predicate(value) ? ok(value) : error(orFailWith(value))`. -/
def filterOrFailCallback (predicate : JSPred) (orFailWith : JSFun) : JSFun :=
  fun value =>
    match predicate value with
    | Except.error e => Except.error e
    | Except.ok b =>
        if b then Except.ok (ok value) else (orFailWith value).map error

/-- The callback `filterOrDie` feeds into `flatMap`, src/src/result.ts
lines 1025-1033: `predicate(value) ? ok(value) : orDie()` where `dieThunk`
is the outcome of invoking the `orDie` thunk (typed `() => never`). -/
def filterOrDieCallback (predicate : JSPred) (dieThunk : Except JSVal JSVal) :
    JSFun :=
  fun value =>
    match predicate value with
    | Except.error e => Except.error e
    | Except.ok b => if b then Except.ok (ok value) else dieThunk

/-- The `apply` closure of `catchAll`, src/src/result.ts lines 1061-1067:
`if (isOk(result)) return result; return handle(result.error)`. -/
def catchAllApply (handle : JSFun) (result : JSVal) : Except JSVal JSVal :=
  if isOk result then Except.ok result else handle (errorField result)

/-- The `apply` closure of `catchIf`, src/src/result.ts lines 1103-1113. -/
def catchIfApply (predicate : JSPred) (handle : JSFun) (result : JSVal) :
    Except JSVal JSVal :=
  if isOk result then Except.ok result
  else
    match predicate (errorField result) with
    | Except.error e => Except.error e
    | Except.ok b =>
        if b then handle (errorField result) else Except.ok result

/-- The `apply` closure of `catchSome`, src/src/result.ts lines 1145-1155:
`const next = handle(result.error); if (isResult(next)) return next;
return result`. -/
def catchSomeApply (handle : JSFun) (result : JSVal) : Except JSVal JSVal :=
  if isOk result then Except.ok result
  else
    match handle (errorField result) with
    | Except.error e => Except.error e
    | Except.ok next =>
        if isResult next then Except.ok next else Except.ok result

/-- The `apply` closure of `catchTag`, src/src/result.ts lines 1192-1203:
`if (!isTagged(result.error, tag)) return result;
return handle(result.error)`. -/
def catchTagApply (tag : String) (handle : JSFun) (result : JSVal) :
    Except JSVal JSVal :=
  if isOk result then Except.ok result
  else
    if isTaggedWith (errorField result) tag then handle (errorField result)
    else Except.ok result

/-- The `apply` closure of `catchTags`, src/src/result.ts lines 1244-1258:
an untagged error passes through; the handler looked up by the tag runs,
and a missing handler passes through. -/
def catchTagsApply (handlers : String → Option JSFun) (result : JSVal) :
    Except JSVal JSVal :=
  if isOk result then Except.ok result
  else
    match tagField (errorField result) with
    | none => Except.ok result
    | some t =>
        match handlers t with
        | none => Except.ok result
        | some handler => handler (errorField result)

/-- The `apply` closure of `tapError`, src/src/result.ts lines 874-882. -/
def tapErrorApply (callback : JSFun) (result : JSVal) : Except JSVal JSVal :=
  if isOk result then Except.ok result
  else
    match callback (errorField result) with
    | Except.error e => Except.error e
    | Except.ok next =>
        if isPromise next then Except.ok (pthen next (fun _ => result))
        else Except.ok result

/-- The `apply` closure of `tapErrorTag`, src/src/result.ts lines 917-929. -/
def tapErrorTagApply (tag : String) (callback : JSFun) (result : JSVal) :
    Except JSVal JSVal :=
  if isOk result then Except.ok result
  else
    if isTaggedWith (errorField result) tag then
      match callback (errorField result) with
      | Except.error e => Except.error e
      | Except.ok next =>
          if isPromise next then Except.ok (pthen next (fun _ => result))
          else Except.ok result
    else Except.ok result

/-- The `apply` closure of `orElse`, src/src/result.ts lines 1286-1292. -/
def orElseApply (handle : JSFun) (result : JSVal) : Except JSVal JSVal :=
  if isOk result then Except.ok result else handle (errorField result)

/-- The `apply` closure of `orElseFail`, src/src/result.ts lines 1316-1322:
`if (isOk(result)) return result; return error(mapError(result.error))`.
`mapError` is defined as `orElseFail` (line 811-813). -/
def orElseFailApply (mapErrorFn : JSFun) (result : JSVal) : Except JSVal JSVal :=
  if isOk result then Except.ok result
  else (mapErrorFn (errorField result)).map error

/-- The `apply` closure of `orElseSucceed`, src/src/result.ts
lines 1347-1353. -/
def orElseSucceedApply (value : JSFun) (result : JSVal) : Except JSVal JSVal :=
  if isOk result then Except.ok result
  else (value (errorField result)).map ok

/-- The `apply` closure of `orDie`, src/src/result.ts lines 1371-1377:
`if (isOk(result)) return result; throw result.error`. -/
def orDieApply (result : JSVal) : Except JSVal JSVal :=
  if isOk result then Except.ok result else Except.error (errorField result)

/-- The `apply` closure of `orDieWith`, src/src/result.ts lines 1401-1407:
`if (isOk(result)) return result; throw mapError(result.error)`. -/
def orDieWithApply (mapErrorFn : JSFun) (result : JSVal) : Except JSVal JSVal :=
  if isOk result then Except.ok result
  else
    match mapErrorFn (errorField result) with
    | Except.error e => Except.error e
    | Except.ok e => Except.error e

/-- A configured combinator of the algebra, one constructor per public
combinator of src/src/result.ts, carrying its configuration functions. -/
inductive Comb : Type where
  | cmap (callback : JSFun)
  | cflatMap (callback : JSFun)
  | ctap (callback : JSFun)
  | cmapError (callback : JSFun)
  | ctapError (callback : JSFun)
  | ctapErrorTag (tag : String) (callback : JSFun)
  | cfilterOrElse (predicate : JSPred) (orElseThunk : Except JSVal JSVal)
  | cfilterOrFail (predicate : JSPred) (orFailWith : JSFun)
  | cfilterOrDie (predicate : JSPred) (dieThunk : Except JSVal JSVal)
  | ccatchAll (handle : JSFun)
  | ccatchIf (predicate : JSPred) (handle : JSFun)
  | ccatchSome (handle : JSFun)
  | ccatchTag (tag : String) (handle : JSFun)
  | ccatchTags (handlers : String → Option JSFun)
  | corElse (handle : JSFun)
  | corElseFail (mapErrorFn : JSFun)
  | corElseSucceed (value : JSFun)
  | corDie
  | corDieWith (mapErrorFn : JSFun)

/-- The `apply` closure each combinator hands to `applyMaybeAsync`
(`map`, `tap` and the filter family are defined through `flatMap` exactly
as in the source). -/
def combApply : Comb → JSVal → Except JSVal JSVal
  | .cmap f => flatMapApply (mapCallback f)
  | .cflatMap f => flatMapApply f
  | .ctap f => flatMapApply (tapCallback f)
  | .cmapError f => orElseFailApply f
  | .ctapError f => tapErrorApply f
  | .ctapErrorTag t f => tapErrorTagApply t f
  | .cfilterOrElse p oe => flatMapApply (filterOrElseCallback p oe)
  | .cfilterOrFail p f => flatMapApply (filterOrFailCallback p f)
  | .cfilterOrDie p d => flatMapApply (filterOrDieCallback p d)
  | .ccatchAll h => catchAllApply h
  | .ccatchIf p h => catchIfApply p h
  | .ccatchSome h => catchSomeApply h
  | .ccatchTag t h => catchTagApply t h
  | .ccatchTags hs => catchTagsApply hs
  | .corElse h => orElseApply h
  | .corElseFail f => orElseFailApply f
  | .corElseSucceed f => orElseSucceedApply f
  | .corDie => orDieApply
  | .corDieWith f => orDieWithApply f

/-- Running a configured combinator on an input: every combinator is the
unary function `(result) => applyMaybeAsync(result, apply)`. -/
def runComb (c : Comb) (result : JSVal) : Except JSVal JSVal :=
  applyMaybeAsync result (combApply c)

/-- A callback that neither throws nor produces a pending handle. -/
def GoodFun (f : JSFun) : Prop :=
  ∀ v, ∃ w, f v = Except.ok w ∧ isPromise w = false

/-- A callback that neither throws nor produces a pending handle and
returns a well-formed Result. -/
def GoodResFun (f : JSFun) : Prop :=
  ∀ v, ∃ w, f v = Except.ok w ∧ isResult w = true ∧ isPromise w = false

/-- A predicate that never throws. -/
def GoodPred (p : JSPred) : Prop :=
  ∀ v, ∃ b, p v = Except.ok b

/-- The configured callbacks of a combinator are synchronous: they return
already-resolved values (Results where the combinator uses the callback
result as the new Result), do not throw, and no escaping (`die`) path is
reachable. -/
def CombSync : Comb → Prop
  | .cmap f => GoodFun f
  | .cflatMap f => GoodResFun f
  | .ctap f => GoodFun f
  | .cmapError f => GoodFun f
  | .ctapError f => GoodFun f
  | .ctapErrorTag _ f => GoodFun f
  | .cfilterOrElse p oe => GoodPred p ∧ ∃ o, oe = Except.ok o ∧ isPromise o = false
  | .cfilterOrFail p f => GoodPred p ∧ GoodFun f
  | .cfilterOrDie p _ => ∀ v, p v = Except.ok true
  | .ccatchAll h => GoodResFun h
  | .ccatchIf p h => GoodPred p ∧ GoodResFun h
  | .ccatchSome h => GoodFun h
  | .ccatchTag _ h => GoodResFun h
  | .ccatchTags hs => ∀ t h, hs t = some h → GoodResFun h
  | .corElse h => GoodResFun h
  | .corElseFail f => GoodFun f
  | .corElseSucceed f => GoodFun f
  | .corDie => True
  | .corDieWith _ => True

/-- An already-resolved input on which the combinator stays inside the
algebra: a success whose payload is not a pending handle, or any failure
(for the escaping `orDie` family, a success only). -/
def ResolvedInput : Comb → JSVal → Prop
  | .corDie, r => isOk r = true
  | .corDieWith _, r => isOk r = true
  | _, r => (∃ v, r = JSVal.okV v ∧ isPromise v = false) ∨ isError r = true

/-- The body of a synchronous generator handed to `gen`: it returns,
throws, yields a value and continues with the value sent back by the
driver, or wraps a body in a `try/finally` whose finalizer is identified
by a label (finalizers are modelled as loggable actions). -/
inductive GenProg : Type where
  | ret (value : JSVal)
  | throwG (e : JSVal)
  | yieldG (value : JSVal) (k : JSVal → GenProg)
  | withFinal (label : String) (body : GenProg)

/-- Outcome of advancing a generator to its next suspension or completion:
`log` records the finalizers that ran on the way; a suspension carries the
continuation (with its enclosing `try/finally` scopes re-installed) and
the finalizer labels still pending, innermost first — exactly what
`iterator.return` would run. -/
inductive GenOutcome : Type where
  | finished (log : List String) (value : JSVal)
  | raised (log : List String) (e : JSVal)
  | suspended (log : List String) (yielded : JSVal) (k : JSVal → GenProg)
      (pending : List String)

/-- Advance a generator body to its next suspension or completion.
A `finally` block runs when its body completes or throws, and is recorded
as pending while its body is suspended at a `yield`. -/
def evalGen : GenProg → GenOutcome
  | .ret v => .finished [] v
  | .throwG e => .raised [] e
  | .yieldG v k => .suspended [] v k []
  | .withFinal l b =>
      match evalGen b with
      | .finished log v => .finished (log ++ [l]) v
      | .raised log e => .raised (log ++ [l]) e
      | .suspended log y k pending =>
          .suspended log y (fun x => .withFinal l (k x)) (pending ++ [l])

/-- An `IteratorResult` as seen by the driver loop, with the iterator state
needed to continue bundled in: done, suspended at a yield, or the body
threw (the driver's `try/catch` observes it). -/
inductive IterRes : Type where
  | doneR (value : JSVal)
  | yieldR (yielded : JSVal) (k : JSVal → GenProg) (pending : List String)
  | thrownR (e : JSVal)

/-- Package a `GenOutcome` as the finalizer log so far plus the
`IteratorResult` the driver inspects. -/
def outcomeToIter : GenOutcome → List String × IterRes
  | .finished log v => (log, .doneR v)
  | .raised log e => (log, .thrownR e)
  | .suspended log y k pending => (log, .yieldR y k pending)

/-- `normalizeReturnValue` from src/src/result.ts lines 539-542:
`if (isResult(value)) return value; return ok(value)`. -/
def normalizeReturnValue (value : JSVal) : JSVal :=
  if isResult value then value else ok value

/-- `genFailure` from src/src/result.ts lines 525-527:
`error(new UnknownException(cause))`. -/
def genFailure (cause : JSVal) : JSVal :=
  error (unknownException cause)

/-- `runSyncGen` from src/src/result.ts lines 563-582, driving the
iterator from a current step: a completed step is normalized; a yielded
non-Result becomes `genFailure`; a yielded failure closes the iterator
(`closeIterator`, lines 544-550, runs the pending finalizers) and is
returned as-is; a yielded success has its payload sent back in.  The
driver's `try/catch` turns a throw from the body into `genFailure`.
`fuel` bounds the loop for totality; the fuel-exhausted marker is never
reached in any theorem below.  The returned pair is the list of finalizer
labels that ran plus the overall Result. -/
def runSyncGen (fuel : Nat) (st : List String × IterRes) :
    List String × JSVal :=
  match st with
  | (log, .doneR v) => (log, normalizeReturnValue v)
  | (log, .thrownR e) => (log, genFailure e)
  | (log, .yieldR y k pending) =>
      if isResult y = false then (log, genFailure y)
      else if isError y = true then (log ++ pending, y)
      else
        match fuel with
        | 0 => (log, JSVal.vundefined)
        | fuel2 + 1 =>
            let nextStep := outcomeToIter (evalGen (k (valueField y)))
            runSyncGen fuel2 (log ++ nextStep.1, nextStep.2)

/-- `gen` from src/src/result.ts lines 697-710, restricted to the
synchronous flavor: create the iterator, pull the first step (any throw
while producing it surfaces as a `raised` outcome, which the driver turns
into `genFailure`), and run the driver. -/
def genRun (fuel : Nat) (p : GenProg) : List String × JSVal :=
  runSyncGen fuel (outcomeToIter (evalGen p))

/-- `times` option of `retry`, src/src/retries.ts line 8: a number or a
predicate over the retry context (attempt index and last error). -/
inductive RetryTimes : Type where
  | num (n : Nat)
  | cond (f : Nat → JSVal → Bool)

/-- `delay` option of `retry`, src/src/retries.ts line 10. -/
inductive RetryDelay : Type where
  | num (ms : Int)
  | fn (f : Nat → JSVal → Int)

/-- `resolveTimes` from src/src/retries.ts lines 21-28: default cap is
`attempt < 3`. -/
def resolveTimes (times : Option RetryTimes) (attempt : Nat) (e : JSVal) :
    Bool :=
  match times with
  | none => decide (attempt < 3)
  | some (.num n) => decide (attempt < n)
  | some (.cond f) => f attempt e

/-- `resolveDelay` from src/src/retries.ts lines 30-37. -/
def resolveDelay (delay : Option RetryDelay) (attempt : Nat) (e : JSVal) :
    Int :=
  match delay with
  | none => 0
  | some (.num ms) => ms
  | some (.fn f) => f attempt e

/-- Result of the synchronous `retry` path: a resolved Result together
with the number of times the effect callback was invoked, or a hand-off
to `retryAsync` (a positive delay or a promise-returning effect), or the
fuel-exhausted marker (never reached in the theorems below). -/
inductive RetryOutcome : Type where
  | sync (result : JSVal) (calls : Nat)
  | handedToAsync
  | fuelOut
deriving DecidableEq

/-- The `while (true)` loop of `retry`, src/src/retries.ts lines 61-73.
`effect i` is the Result produced by the (i+1)-th invocation of the
effect callback; `calls` counts invocations made so far. -/
def retryLoop (effect : Nat → JSVal) (times : Option RetryTimes)
    (delay : Option RetryDelay) (attempt : Nat) (current : JSVal)
    (calls : Nat) (fuel : Nat) : RetryOutcome :=
  match fuel with
  | 0 => RetryOutcome.fuelOut
  | fuel2 + 1 =>
      if typeField current == some ("ok") then RetryOutcome.sync current calls
      else if resolveTimes times attempt (errorField current) = false then
        RetryOutcome.sync current calls
      else if resolveDelay delay attempt (errorField current) > 0 then
        RetryOutcome.handedToAsync
      else
        let next := effect calls
        if isPromise next then RetryOutcome.handedToAsync
        else retryLoop effect times delay (attempt + 1) next (calls + 1) fuel2

/-- `retry` from src/src/retries.ts lines 44-74 (synchronous path): invoke
the effect once, return a success immediately, otherwise check the
first-attempt delay and retry cap and enter the loop. -/
def retry (effect : Nat → JSVal) (times : Option RetryTimes)
    (delay : Option RetryDelay) (fuel : Nat) : RetryOutcome :=
  let first := effect 0
  if isPromise first then RetryOutcome.handedToAsync
  else if typeField first == some ("ok") then RetryOutcome.sync first 1
  else
    let firstDelay := resolveDelay delay 0 (errorField first)
    let shouldFirstRetry := resolveTimes times 0 (errorField first)
    if shouldFirstRetry = false then RetryOutcome.sync first 1
    else if firstDelay > 0 then RetryOutcome.handedToAsync
    else retryLoop effect times delay 0 first 1 fuel

/-- Whether a value is a promise that will fulfill (settle successfully). -/
def isFulfilled : JSVal → Bool
  | .fulfilled _ => true
  | _ => false

/-- A concrete effect callback whose every invocation fails; the payload
records the invocation index. -/
def alwaysFailEffect : Nat → JSVal :=
  fun i => JSVal.errV (JSVal.vnum (Int.ofNat i))

@[simp]
theorem isPromise_okV (v : JSVal) : isPromise (JSVal.okV v) = false := rfl

@[simp]
theorem isPromise_errV (e : JSVal) : isPromise (JSVal.errV e) = false := rfl

@[simp]
theorem isPromise_taggedErr (t m : String) (c : JSVal) :
    isPromise (JSVal.taggedErr t m c) = false := rfl

@[simp]
theorem isPromise_fulfilled (v : JSVal) :
    isPromise (JSVal.fulfilled v) = true := rfl

@[simp]
theorem isPromise_rejected (r : JSVal) :
    isPromise (JSVal.rejected r) = true := rfl

@[simp]
theorem isResult_okV (v : JSVal) : isResult (JSVal.okV v) = true := rfl

@[simp]
theorem isResult_errV (e : JSVal) : isResult (JSVal.errV e) = true := rfl

@[simp]
theorem isResult_taggedErr (t m : String) (c : JSVal) :
    isResult (JSVal.taggedErr t m c) = true := rfl

@[simp]
theorem isResult_fulfilled (v : JSVal) :
    isResult (JSVal.fulfilled v) = false := rfl

@[simp]
theorem isResult_rejected (r : JSVal) :
    isResult (JSVal.rejected r) = false := rfl

@[simp]
theorem isOk_okV (v : JSVal) : isOk (JSVal.okV v) = true := rfl

@[simp]
theorem isOk_errV (e : JSVal) : isOk (JSVal.errV e) = false := rfl

@[simp]
theorem isOk_taggedErr (t m : String) (c : JSVal) :
    isOk (JSVal.taggedErr t m c) = false := by
  simp [isOk, typeField]

@[simp]
theorem isError_okV (v : JSVal) : isError (JSVal.okV v) = false := rfl

@[simp]
theorem isError_errV (e : JSVal) : isError (JSVal.errV e) = true := rfl

@[simp]
theorem isError_taggedErr (t m : String) (c : JSVal) :
    isError (JSVal.taggedErr t m c) = true := by
  simp [isError, isResult, typeField, hasErrorField]

theorem isOk_shape (r : JSVal) (h : isOk r = true) : ∃ v, r = JSVal.okV v := by
  cases r <;> simp_all [isOk, isResult, typeField, hasValueField, hasErrorField]

theorem isError_shape (r : JSVal) (h : isError r = true) :
    (∃ e, r = JSVal.errV e) ∨ ∃ t m c, r = JSVal.taggedErr t m c := by
  cases r <;>
    simp_all [isError, isResult, typeField, hasValueField, hasErrorField]

theorem isError_not_promise (r : JSVal) (h : isError r = true) :
    isPromise r = false := by
  rcases isError_shape r h with ⟨e, rfl⟩ | ⟨t, m, c, rfl⟩ <;> rfl

theorem isError_isResult (r : JSVal) (h : isError r = true) :
    isResult r = true := by
  rcases isError_shape r h with ⟨e, rfl⟩ | ⟨t, m, c, rfl⟩ <;> rfl

@[simp]
theorem isPromise_toPromise (x : JSVal) : isPromise (toPromise x) = true := by
  unfold toPromise
  split <;> simp_all [isPromise]

theorem isPromise_pthenE (r : JSVal) (f : JSVal → Except JSVal JSVal)
    (h : isPromise r = true) : isPromise (pthenE r f) = true := by
  cases r <;> try exact h
  case fulfilled v => cases hf : f v <;> simp [pthenE, hf]

theorem ok_resolved (v : JSVal) (h : isPromise v = false) :
    ok v = JSVal.okV v := by
  cases v <;> simp_all [isPromise, ok]

theorem error_resolved (e : JSVal) (h : isPromise e = false) :
    error e = JSVal.errV e := by
  cases e <;> simp_all [isPromise, error]

theorem runComb_resolved (c : Comb) (r : JSVal) (h : isPromise r = false) :
    runComb c r = combApply c r := by
  simp [runComb, applyMaybeAsync, h]

theorem runComb_pending (c : Comb) (r : JSVal) (h : isPromise r = true) :
    runComb c r = Except.ok (pthenE r (combApply c)) := by
  simp [runComb, applyMaybeAsync, h]

theorem isError_isOk_false (r : JSVal) (h : isError r = true) :
    isOk r = false := by
  rcases isError_shape r h with ⟨e, rfl⟩ | ⟨t, m, c, rfl⟩ <;> simp

theorem isResult_promise_false (p : JSVal) (h : isPromise p = true) :
    isResult p = false := by
  cases p <;> simp_all [isPromise]

theorem typeField_ok_of_isError (x : JSVal) (h : isError x = true) :
    (typeField x == some ("ok")) = false := by
  rcases isError_shape x h with ⟨e, rfl⟩ | ⟨t, m, c, rfl⟩ <;>
    simp [typeField]

/-- Claim C9: an instance of a class produced by `TaggedError(tag)` is
itself a well-formed failure Result: its discriminant is "error", its
`error` field is the instance itself, `isResult` and `isError` hold of it,
`isOk` does not, its `tag` is the given tag, and the return-value
normalization of `gen` leaves it alone, so a generator body returning such
an instance makes `gen` return it as a failure rather than wrapping it in
a success. -/
theorem taggedError_instances_are_failure_results (t m : String) (c : JSVal)
    (fuel : Nat) :
    typeField (JSVal.taggedErr t m c) = some ("error") ∧
    errorField (JSVal.taggedErr t m c) = JSVal.taggedErr t m c ∧
    isResult (JSVal.taggedErr t m c) = true ∧
    isError (JSVal.taggedErr t m c) = true ∧
    isOk (JSVal.taggedErr t m c) = false ∧
    tagField (JSVal.taggedErr t m c) = some t ∧
    normalizeReturnValue (JSVal.taggedErr t m c) = JSVal.taggedErr t m c ∧
    genRun fuel (GenProg.ret (JSVal.taggedErr t m c)) =
      ([], JSVal.taggedErr t m c) := by
  refine ⟨rfl, rfl, rfl, by simp, by simp, rfl, ?_, ?_⟩
  · simp [normalizeReturnValue]
  · simp [genRun, evalGen, outcomeToIter, runSyncGen, normalizeReturnValue]

/-- Claim C4: non-matching pass-through: `catchTag(tag, f)` applied to a
failure whose error payload is not tagged `tag` returns the original
failure Result unchanged (independently of the handler, which is never
consulted), and `catchTags(handlers)` passes through unchanged any failure
whose payload is untagged or whose tag has no entry in the handler map. -/
theorem catch_nonmatching_passthrough :
    (∀ (tag : String) (handle : JSFun) (r : JSVal),
        isError r = true → isTaggedWith (errorField r) tag = false →
        runComb (Comb.ccatchTag tag handle) r = Except.ok r) ∧
    (∀ (handlers : String → Option JSFun) (r : JSVal),
        isError r = true →
        (∀ t, tagField (errorField r) = some t → handlers t = none) →
        runComb (Comb.ccatchTags handlers) r = Except.ok r) := by
  constructor
  · intro tag handle r hr htag
    rw [runComb_resolved _ _ (isError_not_promise r hr)]
    simp [combApply, catchTagApply, isError_isOk_false r hr, htag]
  · intro handlers r hr hmap
    rw [runComb_resolved _ _ (isError_not_promise r hr)]
    simp only [combApply, catchTagsApply, isError_isOk_false r hr]
    cases htf : tagField (errorField r) with
    | none => simp
    | some t => simp [hmap t htf]

/-- Claim C4 witness: a failure tagged "Y" passes through `catchTag` for
tag "X" unchanged. -/
theorem catch_nonmatching_passthrough_witness :
    runComb (Comb.ccatchTag ("X") (fun _ => Except.ok JSVal.vundefined))
        (JSVal.errV (JSVal.tagObj ("Y") 0)) =
      Except.ok (JSVal.errV (JSVal.tagObj ("Y") 0)) :=
  catch_nonmatching_passthrough.1 ("X") _ _ (by decide) (by decide)

/-- Claim C5 counterexample: the claim quantifies over every Result, but a
success Result whose payload is itself a pending handle is a well-formed
Result on which `map(x => x)` does not return a deeply-equal Result: the
identity callback's result is re-wrapped through the `ok` constructor,
which turns the pending payload into a pending handle of the overall
Result. -/
theorem map_identity_counterexample :
    runComb (Comb.cmap (fun v => Except.ok v))
        (JSVal.okV (JSVal.fulfilled (JSVal.vnum 1))) =
      Except.ok (JSVal.fulfilled (JSVal.okV (JSVal.vnum 1))) ∧
    isResult (JSVal.okV (JSVal.fulfilled (JSVal.vnum 1))) = true ∧
    JSVal.fulfilled (JSVal.okV (JSVal.vnum 1)) ≠
      JSVal.okV (JSVal.fulfilled (JSVal.vnum 1)) := by
  refine ⟨rfl, rfl, by decide⟩

/-- Claim C5 (amended): identity laws hold for every Result whose success
payload is not itself a pending handle (failure payloads unrestricted):
`map(x => x)` and `flatMap(x => ok(x))` return the input Result itself. -/
theorem identity_laws :
    (∀ v : JSVal, isPromise v = false →
        runComb (Comb.cmap (fun x => Except.ok x)) (JSVal.okV v) =
          Except.ok (JSVal.okV v)) ∧
    (∀ r : JSVal, isError r = true →
        runComb (Comb.cmap (fun x => Except.ok x)) r = Except.ok r) ∧
    (∀ v : JSVal, isPromise v = false →
        runComb (Comb.cflatMap (fun x => Except.ok (ok x))) (JSVal.okV v) =
          Except.ok (JSVal.okV v)) ∧
    (∀ r : JSVal, isError r = true →
        runComb (Comb.cflatMap (fun x => Except.ok (ok x))) r =
          Except.ok r) := by
  refine ⟨?_, ?_, ?_, ?_⟩
  · intro v hv
    rw [runComb_resolved _ _ (by simp)]
    simp [combApply, flatMapApply, mapCallback, valueField, Except.map,
      ok_resolved v hv]
  · intro r hr
    rw [runComb_resolved _ _ (isError_not_promise r hr)]
    simp [combApply, flatMapApply, hr]
  · intro v hv
    rw [runComb_resolved _ _ (by simp)]
    simp [combApply, flatMapApply, valueField, ok_resolved v hv]
  · intro r hr
    rw [runComb_resolved _ _ (isError_not_promise r hr)]
    simp [combApply, flatMapApply, hr]

/-- Claim C5 witness: the identity laws evaluated at `ok(5)` and at
`error("boom")`. -/
theorem identity_laws_witness :
    runComb (Comb.cmap (fun x => Except.ok x)) (JSVal.okV (JSVal.vnum 5)) =
      Except.ok (JSVal.okV (JSVal.vnum 5)) ∧
    runComb (Comb.cflatMap (fun x => Except.ok (ok x)))
        (JSVal.errV (JSVal.vstr ("boom"))) =
      Except.ok (JSVal.errV (JSVal.vstr ("boom"))) :=
  ⟨identity_laws.1 _ rfl, identity_laws.2.2.2 _ (by decide)⟩

/-- Claim C6: channel separation: every failure-inspecting combinator
applied to any success returns that success untouched, and every
success-inspecting combinator applied to any failure returns that failure
untouched; the statements are universally quantified over the configured
callbacks, so in particular `flatMap(f)` on a failure is independent of
`f` (it is never invoked). -/
theorem channel_separation (r : JSVal) :
    (isOk r = true →
      (∀ f, runComb (Comb.cmapError f) r = Except.ok r) ∧
      (∀ f, runComb (Comb.ctapError f) r = Except.ok r) ∧
      (∀ t f, runComb (Comb.ctapErrorTag t f) r = Except.ok r) ∧
      (∀ f, runComb (Comb.ccatchAll f) r = Except.ok r) ∧
      (∀ p f, runComb (Comb.ccatchIf p f) r = Except.ok r) ∧
      (∀ f, runComb (Comb.ccatchSome f) r = Except.ok r) ∧
      (∀ t f, runComb (Comb.ccatchTag t f) r = Except.ok r) ∧
      (∀ hs, runComb (Comb.ccatchTags hs) r = Except.ok r) ∧
      (∀ f, runComb (Comb.corElse f) r = Except.ok r) ∧
      (∀ f, runComb (Comb.corElseFail f) r = Except.ok r) ∧
      (∀ f, runComb (Comb.corElseSucceed f) r = Except.ok r) ∧
      (runComb Comb.corDie r = Except.ok r) ∧
      (∀ f, runComb (Comb.corDieWith f) r = Except.ok r)) ∧
    (isError r = true →
      (∀ f, runComb (Comb.cmap f) r = Except.ok r) ∧
      (∀ f, runComb (Comb.cflatMap f) r = Except.ok r) ∧
      (∀ f, runComb (Comb.ctap f) r = Except.ok r) ∧
      (∀ p oe, runComb (Comb.cfilterOrElse p oe) r = Except.ok r) ∧
      (∀ p f, runComb (Comb.cfilterOrFail p f) r = Except.ok r) ∧
      (∀ p d, runComb (Comb.cfilterOrDie p d) r = Except.ok r)) := by
  constructor
  · intro h
    obtain ⟨v, rfl⟩ := isOk_shape r h
    refine ⟨?_, ?_, ?_, ?_, ?_, ?_, ?_, ?_, ?_, ?_, ?_, ?_, ?_⟩ <;>
      intros <;>
      simp [runComb_resolved, combApply, orElseFailApply, tapErrorApply,
        tapErrorTagApply, catchAllApply, catchIfApply, catchSomeApply,
        catchTagApply, catchTagsApply, orElseApply, orElseSucceedApply,
        orDieApply, orDieWithApply]
  · intro h
    have hnp := isError_not_promise r h
    refine ⟨?_, ?_, ?_, ?_, ?_, ?_⟩ <;> intros <;>
      simp [runComb_resolved _ _ hnp, combApply, flatMapApply, h]

/-- Claim C6 witness: `catchAll` leaves `ok(7)` alone and `flatMap` with a
throwing callback leaves `error("boom")` alone. -/
theorem channel_separation_witness :
    runComb (Comb.ccatchAll (fun _ => Except.ok (JSVal.okV JSVal.vundefined)))
        (JSVal.okV (JSVal.vnum 7)) = Except.ok (JSVal.okV (JSVal.vnum 7)) ∧
    runComb (Comb.cflatMap (fun _ => Except.error JSVal.vundefined))
        (JSVal.errV (JSVal.vstr ("boom"))) =
      Except.ok (JSVal.errV (JSVal.vstr ("boom"))) :=
  ⟨((channel_separation _).1 (by decide)).2.2.2.1 _,
   ((channel_separation _).2 (by decide)).2.1 _⟩

/-- Claim C10: when `catchSome(f)` is applied to a resolved failure and the
handler returns a pending handle (a promise of a Result), the guard
`isResult(next)` rejects it exactly like the undefined "no match"
sentinel: the original failure is returned unchanged and the pending
replacement is discarded. -/
theorem catchSome_pending_replacement_discarded
    (handle : JSFun) (r p : JSVal)
    (hr : isError r = true) (hp : handle (errorField r) = Except.ok p)
    (hpending : isPromise p = true) :
    runComb (Comb.ccatchSome handle) r = Except.ok r := by
  rw [runComb_resolved _ _ (isError_not_promise r hr)]
  simp [combApply, catchSomeApply, isError_isOk_false r hr, hp,
    isResult_promise_false p hpending]

/-- Claim C10 witness: a handler returning a fulfilled promise of `ok` is
discarded and `error("skip")` passes through. -/
theorem catchSome_pending_replacement_witness :
    runComb
        (Comb.ccatchSome
          (fun _ => Except.ok (JSVal.fulfilled (JSVal.okV JSVal.vundefined))))
        (JSVal.errV (JSVal.vstr ("skip"))) =
      Except.ok (JSVal.errV (JSVal.vstr ("skip"))) :=
  catchSome_pending_replacement_discarded _ _ _ (by decide) rfl rfl

/-- Claim C7 counterexample: `failure` applied to a pending handle that
rejects returns that rejected handle itself: the rejection is propagated
as a rejection, not converted into a handle that resolves to a failure
Result, contradicting the claim that the returned handle always
resolves. -/
theorem failure_ctor_rejection_counterexample :
    error (JSVal.rejected (JSVal.vstr ("boom"))) =
      JSVal.rejected (JSVal.vstr ("boom")) ∧
    isFulfilled (error (JSVal.rejected (JSVal.vstr ("boom")))) = false := by
  exact ⟨rfl, rfl⟩

/-- Claim C7 (amended): for a non-pending value the `error` constructor
immediately returns the failure variant wrapping it; for a pending handle
that fulfills with a non-pending value it returns a pending handle that
resolves to the failure variant; but for a pending handle that rejects,
the returned handle rejects with the same reason (the rejection is not
converted into a resolved failure). -/
theorem failure_constructor (e v r : JSVal) :
    (isPromise e = false → error e = JSVal.errV e) ∧
    (isPromise v = false →
        error (JSVal.fulfilled v) = JSVal.fulfilled (JSVal.errV v)) ∧
    error (JSVal.rejected r) = JSVal.rejected r := by
  refine ⟨fun h => error_resolved e h, fun h => ?_, rfl⟩
  simp [error, error_resolved v h, toPromise]

/-- Claim C7 witness: the constructor evaluated on a plain value and on a
fulfilled handle. -/
theorem failure_constructor_witness :
    error (JSVal.vstr ("boom")) = JSVal.errV (JSVal.vstr ("boom")) ∧
    error (JSVal.fulfilled (JSVal.vstr ("boom"))) =
      JSVal.fulfilled (JSVal.errV (JSVal.vstr ("boom"))) :=
  ⟨(failure_constructor (JSVal.vstr ("boom")) JSVal.vundefined JSVal.vundefined).1 rfl,
   (failure_constructor JSVal.vundefined (JSVal.vstr ("boom")) JSVal.vundefined).2.1 rfl⟩

/-- Claim C2: when a step of a generator sequence yields a failure, the
driver completes immediately with exactly that failure, running exactly
the pending finalizers of the still-open generator once (`closeIterator`),
and independently of the continuation (later steps never run); in
particular a sequence yielding `failure("boom")` inside a `try/finally`
returns `failure("boom")` with the `finally` block run exactly once. -/
theorem gen_failure_short_circuits_and_runs_finalizers :
    (∀ (fuel : Nat) (log pending : List String) (k : JSVal → GenProg)
        (y : JSVal), isError y = true →
        runSyncGen fuel (log, IterRes.yieldR y k pending) =
          (log ++ pending, y)) ∧
    genRun 1
        (GenProg.withFinal ("finally")
          (GenProg.yieldG (error (JSVal.vstr ("boom")))
            (fun v => GenProg.ret v))) =
      ([("finally")], error (JSVal.vstr ("boom"))) := by
  constructor
  · intro fuel log pending k y hy
    unfold runSyncGen
    simp [isError_isResult y hy, hy]
  · rfl

/-- Claim C2 witness: the short-circuit rule evaluated at a concrete
suspended failure with one pending finalizer. -/
theorem gen_failure_finalizers_witness :
    runSyncGen 0
        ([], IterRes.yieldR (JSVal.errV (JSVal.vstr ("boom")))
          (fun v => GenProg.ret v) [("cleanup")]) =
      ([("cleanup")], JSVal.errV (JSVal.vstr ("boom"))) :=
  gen_failure_short_circuits_and_runs_finalizers.1 0 [] [("cleanup")] _ _
    (by decide)

/-- Claim C3: `gen` never lets a native exception escape: a yielded value
that is not a well-formed Result completes the whole sequence as a failure
wrapping it in an `UnknownException` (whose cause it becomes), and a value
thrown anywhere inside the sequence — including while producing the first
step — is caught at the boundary and converted to the same failure shape
instead of being rethrown. -/
theorem gen_boundary_converts_exceptions :
    (∀ v : JSVal, genFailure v =
        JSVal.errV
          (JSVal.taggedErr ("UnknownException") ("Unknown exception") v)) ∧
    (∀ (fuel : Nat) (log pending : List String) (k : JSVal → GenProg)
        (y : JSVal), isResult y = false →
        runSyncGen fuel (log, IterRes.yieldR y k pending) =
          (log, genFailure y)) ∧
    (∀ (fuel : Nat) (log : List String) (e : JSVal),
        runSyncGen fuel (log, IterRes.thrownR e) = (log, genFailure e)) ∧
    (∀ (fuel : Nat) (e : JSVal),
        genRun fuel (GenProg.throwG e) = ([], genFailure e)) := by
  refine ⟨fun v => rfl, ?_, ?_, ?_⟩
  · intro fuel log pending k y hy
    unfold runSyncGen
    simp [hy]
  · intro fuel log e
    unfold runSyncGen
    rfl
  · intro fuel e
    unfold genRun runSyncGen
    rfl

/-- Claim C3 witness: yielding the bare number 42 (not a Result) produces
the `UnknownException` failure wrapping it. -/
theorem gen_boundary_witness :
    runSyncGen 3
        ([], IterRes.yieldR (JSVal.vnum 42) (fun v => GenProg.ret v) []) =
      ([], genFailure (JSVal.vnum 42)) :=
  gen_boundary_converts_exceptions.2.1 3 [] [] _ _ (by decide)

theorem retryLoop_always_fails (effect : Nat → JSVal)
    (times : Option RetryTimes) (n : Nat)
    (hf : ∀ i, isError (effect i) = true)
    (ht : ∀ a e, resolveTimes times a e = decide (a < n)) :
    ∀ (k attempt : Nat), attempt + k = n →
      retryLoop effect times none attempt (effect attempt) (attempt + 1)
          (k + 1) =
        RetryOutcome.sync (effect n) (n + 1) := by
  intro k
  induction k with
  | zero =>
      intro attempt h
      have ha : attempt = n := by omega
      subst ha
      unfold retryLoop
      simp [typeField_ok_of_isError _ (hf attempt), ht, resolveDelay]
  | succ k ih =>
      intro attempt h
      unfold retryLoop
      have hlt : decide (attempt < n) = true := by
        simp
        omega
      simp [typeField_ok_of_isError _ (hf attempt), ht, hlt, resolveDelay,
        isError_not_promise _ (hf (attempt + 1))]
      exact ih (attempt + 1) (by omega)

/-- Claim C8 counterexample: with `times: 3` and an effect that always
fails, `retry` invokes the effect four times (the initial attempt plus
three retries) and returns the failure of the fourth invocation — not
three invocations returning the third failure as the claim states. -/
theorem retry_times_counterexample :
    retry alwaysFailEffect (some (RetryTimes.num 3)) none 10 =
      RetryOutcome.sync (JSVal.errV (JSVal.vnum 3)) 4 ∧
    RetryOutcome.sync (JSVal.errV (JSVal.vnum 3)) 4 ≠
      RetryOutcome.sync (JSVal.errV (JSVal.vnum 2)) 3 := by
  exact ⟨by decide, by decide⟩

/-- Claim C8 (amended): `times` caps the number of retries made after the
initial attempt, so for an effect that always fails,
`retry(fn, (times n))` invokes the effect exactly n + 1 times and returns
the failure of the last invocation; `times` omitted defaults to 3 retries,
i.e. 4 invocations. -/
theorem retry_retries_times_after_first_attempt
    (n : Nat) (effect : Nat → JSVal)
    (hf : ∀ i, isError (effect i) = true) :
    retry effect (some (RetryTimes.num n)) none (n + 1) =
      RetryOutcome.sync (effect n) (n + 1) ∧
    retry effect none none 4 = RetryOutcome.sync (effect 3) 4 := by
  have hnp : ∀ i, isPromise (effect i) = false :=
    fun i => isError_not_promise _ (hf i)
  have hok : ∀ i, (typeField (effect i) == some ("ok")) = false :=
    fun i => typeField_ok_of_isError _ (hf i)
  constructor
  · cases n with
    | zero =>
        unfold retry
        simp [hnp 0, hok 0, resolveTimes, resolveDelay]
    | succ m =>
        have h0 : retry effect (some (RetryTimes.num (m + 1))) none (m + 2) =
            retryLoop effect (some (RetryTimes.num (m + 1))) none 0
              (effect 0) 1 (m + 2) := by
          unfold retry
          simp [hnp 0, hok 0, resolveTimes, resolveDelay]
        rw [h0]
        exact retryLoop_always_fails effect (some (RetryTimes.num (m + 1)))
          (m + 1) hf (fun a e => rfl) (m + 1) 0 (by omega)
  · have h0 : retry effect none none 4 =
        retryLoop effect none none 0 (effect 0) 1 4 := by
      unfold retry
      simp [hnp 0, hok 0, resolveTimes, resolveDelay]
    rw [h0]
    exact retryLoop_always_fails effect none 3 hf (fun a e => rfl) 3 0
      (by omega)

/-- Claim C8 witness: the amended count evaluated at `times: 2` with the
always-failing effect: three invocations, returning the third failure. -/
theorem retry_retries_witness :
    retry alwaysFailEffect (some (RetryTimes.num 2)) none 3 =
      RetryOutcome.sync (alwaysFailEffect 2) 3 :=
  (retry_retries_times_after_first_attempt 2 alwaysFailEffect
    (fun i => by simp [alwaysFailEffect])).1

/-- Claim C1 counterexample: the claim quantifies over every configured
combinator, but a combinator configured with a callback that itself
returns a pending handle (explicitly permitted by the types) violates the
resolved-input half: `flatMap` with such a callback applied to the
already-resolved `ok(1)` returns a pending handle. -/
theorem shape_transparency_counterexample :
    runComb
        (Comb.cflatMap
          (fun _ => Except.ok (JSVal.fulfilled (JSVal.okV (JSVal.vnum 2)))))
        (JSVal.okV (JSVal.vnum 1)) =
      Except.ok (JSVal.fulfilled (JSVal.okV (JSVal.vnum 2))) ∧
    isPromise (JSVal.okV (JSVal.vnum 1)) = false ∧
    isPromise (JSVal.fulfilled (JSVal.okV (JSVal.vnum 2))) = true := by
  exact ⟨rfl, rfl, rfl⟩

/-- Claim C1 (amended): shape transparency across the whole algebra, every
combinator being `(result) => applyMaybeAsync(result, apply)`: a
pending-handle input always produces a new pending handle, and an
already-resolved input produces a resolved well-formed Result
synchronously provided the configured callbacks are themselves
synchronous (`CombSync`) and the input stays inside the algebra
(`ResolvedInput`: a success with non-pending payload or a failure, a
success only for the escaping or-die family); with synchronous callbacks,
`c(ok(v))` is therefore a plain Result iff `v` is not a pending handle. -/
theorem combinator_shape_transparency (c : Comb) (r : JSVal) :
    (isPromise r = true →
      ∃ q, runComb c r = Except.ok q ∧ isPromise q = true) ∧
    (CombSync c → ResolvedInput c r →
      ∃ s, runComb c r = Except.ok s ∧ isResult s = true ∧
        isPromise s = false) := by
  constructor
  · intro hp
    exact ⟨pthenE r (combApply c), runComb_pending c r hp,
      isPromise_pthenE r _ hp⟩
  · intro hs hin
    cases c with
    | cmap f =>
        rcases hin with ⟨v, rfl, hv⟩ | herr
        · obtain ⟨w, hw, hwp⟩ := hs v
          refine ⟨JSVal.okV w, ?_, rfl, rfl⟩
          rw [runComb_resolved _ _ (by simp)]
          simp [combApply, flatMapApply, mapCallback, valueField, hw,
            Except.map, ok_resolved w hwp]
        · refine ⟨r, ?_, isError_isResult r herr, isError_not_promise r herr⟩
          rw [runComb_resolved _ _ (isError_not_promise r herr)]
          simp [combApply, flatMapApply, herr]
    | cflatMap f =>
        rcases hin with ⟨v, rfl, hv⟩ | herr
        · obtain ⟨w, hw, hres, hwp⟩ := hs v
          refine ⟨w, ?_, hres, hwp⟩
          rw [runComb_resolved _ _ (by simp)]
          simp [combApply, flatMapApply, valueField, hw]
        · refine ⟨r, ?_, isError_isResult r herr, isError_not_promise r herr⟩
          rw [runComb_resolved _ _ (isError_not_promise r herr)]
          simp [combApply, flatMapApply, herr]
    | ctap f =>
        rcases hin with ⟨v, rfl, hv⟩ | herr
        · obtain ⟨w, hw, hwp⟩ := hs v
          refine ⟨JSVal.okV v, ?_, rfl, rfl⟩
          rw [runComb_resolved _ _ (by simp)]
          simp [combApply, flatMapApply, tapCallback, valueField, hw, hwp,
            ok_resolved v hv]
        · refine ⟨r, ?_, isError_isResult r herr, isError_not_promise r herr⟩
          rw [runComb_resolved _ _ (isError_not_promise r herr)]
          simp [combApply, flatMapApply, herr]
    | cmapError f =>
        rcases hin with ⟨v, rfl, hv⟩ | herr
        · refine ⟨JSVal.okV v, ?_, rfl, rfl⟩
          rw [runComb_resolved _ _ (by simp)]
          simp [combApply, orElseFailApply]
        · obtain ⟨w, hw, hwp⟩ := hs (errorField r)
          refine ⟨JSVal.errV w, ?_, rfl, rfl⟩
          rw [runComb_resolved _ _ (isError_not_promise r herr)]
          simp [combApply, orElseFailApply, isError_isOk_false r herr, hw,
            Except.map, error_resolved w hwp]
    | ctapError f =>
        rcases hin with ⟨v, rfl, hv⟩ | herr
        · refine ⟨JSVal.okV v, ?_, rfl, rfl⟩
          rw [runComb_resolved _ _ (by simp)]
          simp [combApply, tapErrorApply]
        · obtain ⟨w, hw, hwp⟩ := hs (errorField r)
          refine ⟨r, ?_, isError_isResult r herr, isError_not_promise r herr⟩
          rw [runComb_resolved _ _ (isError_not_promise r herr)]
          simp [combApply, tapErrorApply, isError_isOk_false r herr, hw, hwp]
    | ctapErrorTag t f =>
        rcases hin with ⟨v, rfl, hv⟩ | herr
        · refine ⟨JSVal.okV v, ?_, rfl, rfl⟩
          rw [runComb_resolved _ _ (by simp)]
          simp [combApply, tapErrorTagApply]
        · refine ⟨r, ?_, isError_isResult r herr, isError_not_promise r herr⟩
          rw [runComb_resolved _ _ (isError_not_promise r herr)]
          cases htag : isTaggedWith (errorField r) t with
          | false =>
              simp [combApply, tapErrorTagApply, isError_isOk_false r herr,
                htag]
          | true =>
              obtain ⟨w, hw, hwp⟩ := hs (errorField r)
              simp [combApply, tapErrorTagApply, isError_isOk_false r herr,
                htag, hw, hwp]
    | cfilterOrElse p oe =>
        obtain ⟨hp1, o, hoe, ho⟩ := hs
        rcases hin with ⟨v, rfl, hv⟩ | herr
        · obtain ⟨b, hb⟩ := hp1 v
          cases b with
          | false =>
              refine ⟨JSVal.okV o, ?_, rfl, rfl⟩
              rw [runComb_resolved _ _ (by simp)]
              simp [combApply, flatMapApply, filterOrElseCallback,
                valueField, hb, hoe, Except.map, ok_resolved o ho]
          | true =>
              refine ⟨JSVal.okV v, ?_, rfl, rfl⟩
              rw [runComb_resolved _ _ (by simp)]
              simp [combApply, flatMapApply, filterOrElseCallback,
                valueField, hb, ok_resolved v hv]
        · refine ⟨r, ?_, isError_isResult r herr, isError_not_promise r herr⟩
          rw [runComb_resolved _ _ (isError_not_promise r herr)]
          simp [combApply, flatMapApply, herr]
    | cfilterOrFail p f =>
        obtain ⟨hp1, hf⟩ := hs
        rcases hin with ⟨v, rfl, hv⟩ | herr
        · obtain ⟨b, hb⟩ := hp1 v
          cases b with
          | false =>
              obtain ⟨w, hw, hwp⟩ := hf v
              refine ⟨JSVal.errV w, ?_, rfl, rfl⟩
              rw [runComb_resolved _ _ (by simp)]
              simp [combApply, flatMapApply, filterOrFailCallback,
                valueField, hb, hw, Except.map, error_resolved w hwp]
          | true =>
              refine ⟨JSVal.okV v, ?_, rfl, rfl⟩
              rw [runComb_resolved _ _ (by simp)]
              simp [combApply, flatMapApply, filterOrFailCallback,
                valueField, hb, ok_resolved v hv]
        · refine ⟨r, ?_, isError_isResult r herr, isError_not_promise r herr⟩
          rw [runComb_resolved _ _ (isError_not_promise r herr)]
          simp [combApply, flatMapApply, herr]
    | cfilterOrDie p d =>
        rcases hin with ⟨v, rfl, hv⟩ | herr
        · refine ⟨JSVal.okV v, ?_, rfl, rfl⟩
          rw [runComb_resolved _ _ (by simp)]
          simp [combApply, flatMapApply, filterOrDieCallback, valueField,
            hs v, ok_resolved v hv]
        · refine ⟨r, ?_, isError_isResult r herr, isError_not_promise r herr⟩
          rw [runComb_resolved _ _ (isError_not_promise r herr)]
          simp [combApply, flatMapApply, herr]
    | ccatchAll h =>
        rcases hin with ⟨v, rfl, hv⟩ | herr
        · refine ⟨JSVal.okV v, ?_, rfl, rfl⟩
          rw [runComb_resolved _ _ (by simp)]
          simp [combApply, catchAllApply]
        · obtain ⟨w, hw, hres, hwp⟩ := hs (errorField r)
          refine ⟨w, ?_, hres, hwp⟩
          rw [runComb_resolved _ _ (isError_not_promise r herr)]
          simp [combApply, catchAllApply, isError_isOk_false r herr, hw]
    | ccatchIf p h =>
        obtain ⟨hp1, hh⟩ := hs
        rcases hin with ⟨v, rfl, hv⟩ | herr
        · refine ⟨JSVal.okV v, ?_, rfl, rfl⟩
          rw [runComb_resolved _ _ (by simp)]
          simp [combApply, catchIfApply]
        · obtain ⟨b, hb⟩ := hp1 (errorField r)
          cases b with
          | false =>
              refine ⟨r, ?_, isError_isResult r herr,
                isError_not_promise r herr⟩
              rw [runComb_resolved _ _ (isError_not_promise r herr)]
              simp [combApply, catchIfApply, isError_isOk_false r herr, hb]
          | true =>
              obtain ⟨w, hw, hres, hwp⟩ := hh (errorField r)
              refine ⟨w, ?_, hres, hwp⟩
              rw [runComb_resolved _ _ (isError_not_promise r herr)]
              simp [combApply, catchIfApply, isError_isOk_false r herr, hb,
                hw]
    | ccatchSome h =>
        rcases hin with ⟨v, rfl, hv⟩ | herr
        · refine ⟨JSVal.okV v, ?_, rfl, rfl⟩
          rw [runComb_resolved _ _ (by simp)]
          simp [combApply, catchSomeApply]
        · obtain ⟨w, hw, hwp⟩ := hs (errorField r)
          cases hres : isResult w with
          | false =>
              refine ⟨r, ?_, isError_isResult r herr,
                isError_not_promise r herr⟩
              rw [runComb_resolved _ _ (isError_not_promise r herr)]
              simp [combApply, catchSomeApply, isError_isOk_false r herr,
                hw, hres]
          | true =>
              refine ⟨w, ?_, hres, hwp⟩
              rw [runComb_resolved _ _ (isError_not_promise r herr)]
              simp [combApply, catchSomeApply, isError_isOk_false r herr,
                hw, hres]
    | ccatchTag t h =>
        rcases hin with ⟨v, rfl, hv⟩ | herr
        · refine ⟨JSVal.okV v, ?_, rfl, rfl⟩
          rw [runComb_resolved _ _ (by simp)]
          simp [combApply, catchTagApply]
        · cases htag : isTaggedWith (errorField r) t with
          | false =>
              refine ⟨r, ?_, isError_isResult r herr,
                isError_not_promise r herr⟩
              rw [runComb_resolved _ _ (isError_not_promise r herr)]
              simp [combApply, catchTagApply, isError_isOk_false r herr,
                htag]
          | true =>
              obtain ⟨w, hw, hres, hwp⟩ := hs (errorField r)
              refine ⟨w, ?_, hres, hwp⟩
              rw [runComb_resolved _ _ (isError_not_promise r herr)]
              simp [combApply, catchTagApply, isError_isOk_false r herr,
                htag, hw]
    | ccatchTags handlers =>
        rcases hin with ⟨v, rfl, hv⟩ | herr
        · refine ⟨JSVal.okV v, ?_, rfl, rfl⟩
          rw [runComb_resolved _ _ (by simp)]
          simp [combApply, catchTagsApply]
        · cases htf : tagField (errorField r) with
          | none =>
              refine ⟨r, ?_, isError_isResult r herr,
                isError_not_promise r herr⟩
              rw [runComb_resolved _ _ (isError_not_promise r herr)]
              simp [combApply, catchTagsApply, isError_isOk_false r herr,
                htf]
          | some t =>
              cases hht : handlers t with
              | none =>
                  refine ⟨r, ?_, isError_isResult r herr,
                    isError_not_promise r herr⟩
                  rw [runComb_resolved _ _ (isError_not_promise r herr)]
                  simp [combApply, catchTagsApply,
                    isError_isOk_false r herr, htf, hht]
              | some handler =>
                  obtain ⟨w, hw, hres, hwp⟩ := hs t handler hht (errorField r)
                  refine ⟨w, ?_, hres, hwp⟩
                  rw [runComb_resolved _ _ (isError_not_promise r herr)]
                  simp [combApply, catchTagsApply,
                    isError_isOk_false r herr, htf, hht, hw]
    | corElse h =>
        rcases hin with ⟨v, rfl, hv⟩ | herr
        · refine ⟨JSVal.okV v, ?_, rfl, rfl⟩
          rw [runComb_resolved _ _ (by simp)]
          simp [combApply, orElseApply]
        · obtain ⟨w, hw, hres, hwp⟩ := hs (errorField r)
          refine ⟨w, ?_, hres, hwp⟩
          rw [runComb_resolved _ _ (isError_not_promise r herr)]
          simp [combApply, orElseApply, isError_isOk_false r herr, hw]
    | corElseFail f =>
        rcases hin with ⟨v, rfl, hv⟩ | herr
        · refine ⟨JSVal.okV v, ?_, rfl, rfl⟩
          rw [runComb_resolved _ _ (by simp)]
          simp [combApply, orElseFailApply]
        · obtain ⟨w, hw, hwp⟩ := hs (errorField r)
          refine ⟨JSVal.errV w, ?_, rfl, rfl⟩
          rw [runComb_resolved _ _ (isError_not_promise r herr)]
          simp [combApply, orElseFailApply, isError_isOk_false r herr, hw,
            Except.map, error_resolved w hwp]
    | corElseSucceed f =>
        rcases hin with ⟨v, rfl, hv⟩ | herr
        · refine ⟨JSVal.okV v, ?_, rfl, rfl⟩
          rw [runComb_resolved _ _ (by simp)]
          simp [combApply, orElseSucceedApply]
        · obtain ⟨w, hw, hwp⟩ := hs (errorField r)
          refine ⟨JSVal.okV w, ?_, rfl, rfl⟩
          rw [runComb_resolved _ _ (isError_not_promise r herr)]
          simp [combApply, orElseSucceedApply, isError_isOk_false r herr,
            hw, Except.map, ok_resolved w hwp]
    | corDie =>
        obtain ⟨v, rfl⟩ := isOk_shape r hin
        refine ⟨JSVal.okV v, ?_, rfl, rfl⟩
        rw [runComb_resolved _ _ (by simp)]
        simp [combApply, orDieApply]
    | corDieWith f =>
        obtain ⟨v, rfl⟩ := isOk_shape r hin
        refine ⟨JSVal.okV v, ?_, rfl, rfl⟩
        rw [runComb_resolved _ _ (by simp)]
        simp [combApply, orDieWithApply]

/-- Claim C1 witness: the pending-input half evaluated on `orDie` fed a
fulfilled handle, and the resolved-input half evaluated on a synchronous
`map` fed `ok(1)`. -/
theorem combinator_shape_transparency_witness :
    (∃ q, runComb Comb.corDie (JSVal.fulfilled (JSVal.errV JSVal.vundefined)) =
        Except.ok q ∧ isPromise q = true) ∧
    (∃ s, runComb (Comb.cmap (fun _ => Except.ok JSVal.vundefined))
        (JSVal.okV (JSVal.vnum 1)) = Except.ok s ∧
      isResult s = true ∧ isPromise s = false) :=
  ⟨(combinator_shape_transparency Comb.corDie
      (JSVal.fulfilled (JSVal.errV JSVal.vundefined))).1 rfl,
   (combinator_shape_transparency
      (Comb.cmap (fun _ => Except.ok JSVal.vundefined))
      (JSVal.okV (JSVal.vnum 1))).2
     (fun _ => ⟨JSVal.vundefined, rfl, rfl⟩)
     (Or.inl ⟨JSVal.vnum 1, rfl, rfl⟩)⟩

end Tryhard
